import Mathlib

/-!
Shallow embedding of the go-tiled render package (src/render/renderer.go).

Modelling conventions:
- Go image.Point and image.Rectangle carry machine ints; we model the
  coordinates as Int. The collision maps in the source use float64 keys and
  values, but every stored value is produced by converting an int, and the
  expansion loops step by 1.0, which is exact on integer-valued float64 below
  2 to the 53; we therefore model these coordinates as Int as well.
- Go uint32 arithmetic (tile ids, firstGID) is modelled as Nat with explicit
  reduction modulo 2 to the 32 at the points where the source adds or
  converts and can overflow. Go int fields of tilesets (sizes, margins,
  counts) are nonnegative in every parsed map and are modelled as Nat; Nat
  division coincides with Go truncated int division on nonnegative values.
  Go panics on division by zero; theorems that depend on a division carry a
  positivity hypothesis instead.
- Images are modelled symbolically: decoding a file yields Img.src of its
  path, imaging.Crop yields Img.crop, and the engine RotateTileImage (whose
  implementation is not under src/) yields Img.rot of the flip flags of the
  placed tile. Pixel identity is equality of these symbolic values. A Go nil
  image.Image interface value is Img.nilImg.
- Decoding and cropping work performed by getTileImage is recorded in an
  event list, so cache-hit and repeated-work claims are statable.
- The in-memory map model (Map, Layer, LayerTile, Tileset and their helper
  methods) lives in the parent go-tiled package, which is not under src/;
  those structures are modelled from the spec (sections 3 and 6) with the
  field names the renderer source accesses.
-/

namespace TiledRender

/-- Machine modulus for Go uint32 arithmetic. -/
def u32 : Nat := 2 ^ 32

/-- Go image.Point (int fields). -/
structure GoPoint where
  X : Int
  Y : Int
  deriving DecidableEq, Repr

/-- Go image.Rectangle with Min and Max corner points. -/
structure GoRect where
  Min : GoPoint
  Max : GoPoint
  deriving DecidableEq, Repr

/-- Instrumentation: a unit of decoding or slicing work done by getTileImage.
decode records that a source image file was opened and decoded; cropEv
records one imaging.Crop of an atlas. -/
inductive Ev where
  | decode (path : String)
  | cropEv
  deriving DecidableEq, Repr

/-- Symbolic pixel images. src is the decoded content of a file, crop is
imaging.Crop of a base image at a rectangle, rot is the result of the engine
RotateTileImage with the three flip flags (modelled from the spec, 4.2: a
deterministic transform of the flags and the base image; the engine source is
not under src/). nilImg is the Go nil image.Image interface value. -/
inductive Img where
  | nilImg
  | src (path : String)
  | crop (base : Img) (r : GoRect)
  | rot (hf vf df : Bool) (base : Img)
  deriving DecidableEq, Repr

/-- Modelled from the spec: the atlas image descriptor of a tileset (source
path and pixel dimensions), from the external map model. -/
structure TsImage where
  Source : String
  Width : Nat
  Height : Nat
  deriving DecidableEq, Repr

/-- Modelled from the spec: a per-tileset tile definition with local id, a
type or class string (Go field Type, renamed because Type is reserved in
Lean), and the source path of its individual image. -/
structure TilesetTile where
  ID : Nat
  TileType : String
  ImageSource : String
  deriving DecidableEq, Repr

/-- Modelled from the spec: one animation frame, a local tile id and a
duration. -/
structure AnimationFrame where
  TileID : Nat
  Duration : Nat
  deriving DecidableEq, Repr

/-- Modelled from the spec: a tileset of the external map model. FirstGID is
uint32; the geometry fields are Go ints, nonnegative in any parsed tileset.
BaseDir supports GetFileFullPath. -/
structure Tileset where
  FirstGID : Nat
  TileWidth : Nat
  TileHeight : Nat
  Spacing : Nat
  Margin : Nat
  Columns : Nat
  TileCount : Nat
  Image : Option TsImage
  Tiles : List TilesetTile
  BaseDir : String
  deriving DecidableEq, Repr

/-- Modelled from the spec: Tileset.GetFileFullPath of the external map
model resolves a source path relative to the tileset location. -/
def Tileset.GetFileFullPath (ts : Tileset) (source : String) : String :=
  ts.BaseDir ++ source

/-- Modelled from the spec: a layer tile reference. Nil marks an empty cell;
otherwise it resolves to a tileset, a local id (uint32) and flip flags. The
renderer source also reads Collision and Animation directly from the layer
tile. -/
structure LayerTile where
  Nil : Bool
  ID : Nat
  Tileset : Tileset
  HorizontalFlip : Bool
  VerticalFlip : Bool
  DiagonalFlip : Bool
  Collision : List GoRect
  Animation : List AnimationFrame
  deriving DecidableEq, Repr

/-- Modelled from the spec: LayerTile.IsNil of the external map model. -/
def LayerTile.IsNil (t : LayerTile) : Bool := t.Nil

/-- Modelled from the spec: a map layer, row-major tile references plus
visibility and opacity (a float64 in Go, integer comparisons only; modelled
as Rat). -/
structure Layer where
  Tiles : List LayerTile
  Visible : Bool
  Opacity : Rat

/-- Modelled from the spec: the map model. LoaderFS collapses the two Go nil
checks on Loader and Loader.FileSystem into one Option: none means the os
filesystem is used for the atlas image. GidToTile models Map.TileGIDToTile
of the external map model: lookup of a layer tile by global id, none on
error. -/
structure Map where
  Orientation : String
  RenderOrder : String
  Width : Nat
  Height : Nat
  TileWidth : Nat
  TileHeight : Nat
  Layers : List Layer
  LoaderFS : Option (String → Option Img)
  GidToTile : Nat → Option LayerTile

/-- The tile cache of the renderer: global tile id to decoded image. A Go
map lookup misses exactly when the model returns none. -/
abbrev Cache := Nat → Option Img

/-- The uint32 cache key tile.Tileset.FirstGID + tile.ID of the source. -/
def gidKey (tile : LayerTile) : Nat :=
  (tile.Tileset.FirstGID + tile.ID) % u32

/-- The engine RotateTileImage call of the source, modelled from the spec
(4.2) as the symbolic deterministic transform of the flip flags of the
placed tile. -/
def rotTile (tile : LayerTile) (img : Img) : Img :=
  Img.rot tile.HorizontalFlip tile.VerticalFlip tile.DiagonalFlip img

/-- Result of getTileImage: the Go return pair plus the updated cache and
the decode and crop work performed. -/
structure GTOut where
  res : Except String Img
  cache : Cache
  evs : List Ev

/-- The slice rectangle the atlas loop of getTileImage computes for tile
index j: x and y are the column and row, xOffset and yOffset the margin and
spacing displacements, exactly as in the source. -/
def sliceRectCode (tw th sp mg cols j : Nat) : GoRect :=
  let x := j % cols
  let y := j / cols
  let xOff := x * sp + mg
  let yOff := y * sp + mg
  ⟨⟨(x * tw + xOff : Nat), (y * th + yOff : Nat)⟩,
   ⟨((x + 1) * tw + xOff : Nat), ((y + 1) * th + yOff : Nat)⟩⟩

/-- The atlas precache loop of getTileImage (source lines 166 to 182): for
each tile index j below n, crop the slice rectangle out of the decoded atlas
and store it at key fgid + j; remember the slice of the requested tile id in
the first component (initially the Go nil image). -/
def atlasFold (base : Img) (tw th sp mg cols fgid tid n : Nat) (c : Cache) :
    Img × Cache × List Ev :=
  (List.range n).foldl
    (fun st j =>
      let cropped := Img.crop base (sliceRectCode tw th sp mg cols j)
      (if tid = j then cropped else st.1,
       fun k => if k = fgid + j then some cropped else st.2.1 k,
       st.2.2 ++ [Ev.cropEv]))
    (Img.nilImg, c, [])

/-- The per-tile-image loop of getTileImage (source lines 110 to 123): walk
the tile definitions; for each entry whose id equals the requested local id,
open and decode its individual image file (error aborts with the partial
cache retained) and store the decoded image at the requested key. The image
component carries the Go variable timg. -/
def perTileFold (osFS : String → Option Img) (ts : Tileset) (tid key : Nat) :
    List TilesetTile → Img → Cache → List Ev →
    Option String × Img × Cache × List Ev
  | [], timg, c, evs => (none, timg, c, evs)
  | tt :: rest, timg, c, evs =>
    if tt.ID = tid then
      match osFS (ts.GetFileFullPath tt.ImageSource) with
      | none => (some (ts.GetFileFullPath tt.ImageSource), timg, c, evs)
      | some dimg =>
        perTileFold osFS ts tid key rest dimg
          (fun k => if k = key then some dimg else c k)
          (evs ++ [Ev.decode (ts.GetFileFullPath tt.ImageSource)])
    else perTileFold osFS ts tid key rest timg c evs

/-- The derived column count of the atlas branch (source lines 158 to 160):
when the tileset column count is zero it is atlas width divided by tile
width plus spacing. -/
def atlasCols (ts : Tileset) (ai : TsImage) : Nat :=
  if ts.Columns = 0 then ai.Width / (ts.TileWidth + ts.Spacing) else ts.Columns

/-- The derived tile count of the atlas branch (source lines 162 to 164):
when the tileset tile count is zero it is atlas height divided by tile
height plus spacing, times the derived column count. -/
def atlasCnt (ts : Tileset) (ai : TsImage) : Nat :=
  if ts.TileCount = 0 then (ai.Height / (ts.TileHeight + ts.Spacing)) * atlasCols ts ai
  else ts.TileCount

/-- The iteration count of the uint32 atlas loop (source line 166): the
loop runs from FirstGID while below FirstGID plus uint32(tileCount), both
reduced modulo 2 to the 32 as in Go. -/
def atlasN (ts : Tileset) (ai : TsImage) : Nat :=
  (ts.FirstGID + atlasCnt ts ai % u32) % u32 - ts.FirstGID

/-- The effective filesystem the atlas branch opens the atlas with: the
loader filesystem when the map has one, the os filesystem otherwise
(source lines 125 to 148; the per-tile branch always uses the os
filesystem). -/
def effFS (osFS : String → Option Img) (m : Map) : String → Option Img :=
  match m.LoaderFS with
  | none => osFS
  | some lfs => lfs

/-- getTileImage of the source (lines 103 to 186). Cache hit returns the
rotated cached image. Otherwise: a tileset without an atlas image decodes
the matching per-tile image files; a tileset with an atlas decodes the
atlas, derives columns and tile count when they are zero, and precaches
every slice. The uint32 loop bound FirstGID + uint32(tileCount) is reduced
modulo 2 to the 32 as in Go. -/
def getTileImage (osFS : String → Option Img) (m : Map) (c : Cache)
    (tile : LayerTile) : GTOut :=
  match c (gidKey tile) with
  | some timg => ⟨.ok (rotTile tile timg), c, []⟩
  | none =>
    match tile.Tileset.Image with
    | none =>
      match perTileFold osFS tile.Tileset tile.ID (gidKey tile)
          tile.Tileset.Tiles Img.nilImg c [] with
      | (some e, _, c2, evs2) => ⟨.error e, c2, evs2⟩
      | (none, timg, c2, evs2) => ⟨.ok (rotTile tile timg), c2, evs2⟩
    | some ai =>
      let path := tile.Tileset.GetFileFullPath ai.Source
      match effFS osFS m path with
      | none => ⟨.error path, c, []⟩
      | some baseImg =>
        let out := atlasFold baseImg tile.Tileset.TileWidth tile.Tileset.TileHeight
          tile.Tileset.Spacing tile.Tileset.Margin (atlasCols tile.Tileset ai)
          tile.Tileset.FirstGID tile.ID (atlasN tile.Tileset ai) c
        ⟨.ok (rotTile tile out.1), out.2.1, Ev.decode path :: out.2.2⟩

/-- A sparse collision map: a coordinate on one axis to the list of
coordinates on the other axis. A missing Go map key reads as the nil slice,
so absence is the empty list. -/
abbrev CMap := Int → List Int

/-- Appending one value to the list at one key of a collision map, the Go
colmap[k] = append(colmap[k], v). -/
def cmAppend (mp : CMap) (k v : Int) : CMap :=
  fun a => if a = k then mp k ++ [v] else mp a

/-- The integer points of a closed interval, in ascending order: the values
the float64 loops of the source visit between two integer-valued bounds. -/
def intRange (a b : Int) : List Int :=
  (List.range (b + 1 - a).toNat).map (fun j : Nat => a + (j : Int))

/-- The innermost collision step of the source (lines 232 to 233): the pair
(x, y) is appended to both maps, x into colmapY at y and y into colmapX at
x. The first component is colmapY, the second colmapX. -/
def pairStep (mm : CMap × CMap) (y x : Int) : CMap × CMap :=
  (cmAppend mm.1 y x, cmAppend mm.2 x y)

/-- The two nested loops of the source (lines 226 to 235) over one collision
rectangle translated by the placement origin, inclusive of both edges. -/
def expandRect (pos : GoRect) (col : GoRect) (mm : CMap × CMap) : CMap × CMap :=
  let pymin := pos.Min.Y + col.Min.Y
  let pymax := pos.Min.Y + col.Max.Y
  let pxmin := pos.Min.X + col.Min.X
  let pxmax := pos.Min.X + col.Max.X
  (intRange pymin pymax).foldl
    (fun mm2 y => (intRange pxmin pxmax).foldl (fun mm3 x => pairStep mm3 y x) mm2)
    mm

/-- The collision loop of the source (lines 224 to 237): every collision
rectangle of the tile whose Max.Y is not zero is expanded. -/
def expandCollisions (pos : GoRect) (cols : List GoRect) (mm : CMap × CMap) :
    CMap × CMap :=
  cols.foldl (fun mm2 col => if col.Max.Y ≠ 0 then expandRect pos col mm2 else mm2) mm

/-- The TilePlane scan of the source (lines 245 to 250): the type of the
first tileset tile definition whose id matches, the empty string (the Go
zero value) when none matches. -/
def findPlane : List TilesetTile → Nat → String
  | [], _ => ""
  | tt :: rest, tid => if tt.ID = tid then tt.TileType else findPlane rest tid

/-- The animation frame loop of the source (lines 252 to 263): resolve each
frame by global id (uint32 sum of the frame tile id and the tileset
firstGID); a failed lookup or a failed image resolution skips the frame,
cache mutations of failed resolutions are retained. -/
def resolveFrames (osFS : String → Option Img) (m : Map) (fgid : Nat) :
    List AnimationFrame → Cache → List Img × Cache × List Ev
  | [], c => ([], c, [])
  | f :: rest, c =>
    match m.GidToTile ((f.TileID + fgid) % u32) with
    | none => resolveFrames osFS m fgid rest c
    | some lt =>
      let g := getTileImage osFS m c lt
      match g.res with
      | .error _ =>
        let out := resolveFrames osFS m fgid rest g.cache
        (out.1, out.2.1, g.evs ++ out.2.2)
      | .ok animg =>
        let out := resolveFrames osFS m fgid rest g.cache
        (animg :: out.1, out.2.1, g.evs ++ out.2.2)

/-- A tile object collected by RenderLayer; TilePlane keeps its Go zero
value because the source never sets it on tile objects. -/
structure TileObject where
  TileImage : Img
  TilePos : GoRect
  TilePlane : String

/-- An animation record collected by RenderLayer. Duration is uint32 and is
never populated by the source, staying zero. -/
structure AnimationTile where
  TileImages : List Img
  TilePos : GoRect
  TilePlane : String
  Duration : Nat

/-- The LayerObjects result of the source; the Go zero value has nil lists
and nil maps, which read as empty. -/
structure LayerObjects where
  Animation : List AnimationTile := []
  TileObjects : List TileObject := []
  XCollision : CMap := fun _ => []
  YCollision : CMap := fun _ => []

/-- One draw onto the shared canvas: the placement rectangle, the drawn
image, and whether the opacity mask path was taken. -/
structure DrawOp where
  pos : GoRect
  img : Img
  masked : Bool

/-- The part of the RendererEngine interface RenderLayer uses: Bounds of an
image and GetTrueTilePosition. The orthogonal implementation is not under
src/; the compositor is verified over an arbitrary engine, and concrete
scenarios instantiate one modelled from the spec (4.2). -/
structure Engine where
  bounds : Img → GoRect
  truePos : GoRect → Nat → Nat → GoRect

/-- The mutable state RenderLayer threads through the cell walk: the
accumulated layer objects, the two collision maps (colmapY and colmapX of
the source), the tile cache, the draw calls made on the canvas and the
image work events. -/
structure RLState where
  lo : LayerObjects
  colmapY : CMap
  colmapX : CMap
  cache : Cache
  draws : List DrawOp
  evs : List Ev

/-- The default layer tile used for an out-of-range index; a well-formed
layer has exactly width times height tiles (spec, section 3), where this
default is never reached (Go would panic on an out-of-range access). -/
def nilLayerTile : LayerTile :=
  { Nil := true, ID := 0,
    Tileset := { FirstGID := 0, TileWidth := 0, TileHeight := 0, Spacing := 0,
                 Margin := 0, Columns := 0, TileCount := 0, Image := none,
                 Tiles := [], BaseDir := "" },
    HorizontalFlip := false, VerticalFlip := false, DiagonalFlip := false,
    Collision := [], Animation := [] }

/-- The body of the cell loop of RenderLayer for one non-nil tile (source
lines 217 to 283): resolve the image (hard failure aborts the layer),
compute the placement, expand collisions, build the animation record when
the tile animates, collect the tile object, and draw with or without the
opacity mask. -/
def processCell (osFS : String → Option Img) (eng : Engine) (m : Map)
    (layer : Layer) (x y : Nat) (ltile : LayerTile) (st : RLState) :
    RLState × Option String :=
  let g := getTileImage osFS m st.cache ltile
  match g.res with
  | .error e => ({ st with cache := g.cache, evs := st.evs ++ g.evs }, some e)
  | .ok img =>
    let pos := eng.truePos (eng.bounds img) x y
    let mm := expandCollisions pos ltile.Collision (st.colmapY, st.colmapX)
    let st1 := { st with
      colmapY := mm.1, colmapX := mm.2, cache := g.cache, evs := st.evs ++ g.evs }
    let st2 :=
      if 0 < ltile.Animation.length then
        let plane := findPlane ltile.Tileset.Tiles ltile.ID
        let rf := resolveFrames osFS m ltile.Tileset.FirstGID
          (ltile.Animation.drop 1) st1.cache
        let arec : AnimationTile :=
          { TileImages := img :: rf.1, TilePos := pos, TilePlane := plane,
            Duration := 0 }
        { st1 with
          lo := { st1.lo with Animation := st1.lo.Animation ++ [arec] },
          cache := rf.2.1, evs := st1.evs ++ rf.2.2 }
      else st1
    let st3 := { st2 with
      lo := { st2.lo with TileObjects := st2.lo.TileObjects ++
        [({ TileImage := img, TilePos := pos, TilePlane := "" } : TileObject)] } }
    ({ st3 with draws := st3.draws ++
        [({ pos := pos, img := img, masked := decide (layer.Opacity < 1) } : DrawOp)] },
     none)

/-- The cell walk of RenderLayer: with render order right-down the source
visits cell index i at grid coordinate (i mod width, i div width), the
counter advancing on nil cells too; a hard tile failure stops the walk. -/
def renderCells (osFS : String → Option Img) (eng : Engine) (m : Map)
    (layer : Layer) : List Nat → RLState → RLState × Option String
  | [], st => (st, none)
  | i :: rest, st =>
    let ltile := layer.Tiles.getD i nilLayerTile
    if ltile.IsNil then renderCells osFS eng m layer rest st
    else
      match processCell osFS eng m layer (i % m.Width) (i / m.Width) ltile st with
      | (st2, some e) => (st2, some e)
      | (st2, none) => renderCells osFS eng m layer rest st2

/-- The values of the two sentinel error variables of the source. -/
def ErrUnsupportedOrientation : String := "tiled/render: unsupported orientation"

/-- The unsupported render order sentinel error of the source. -/
def ErrUnsupportedRenderOrder : String := "tiled/render: unsupported render order"

/-- The result of RenderLayer: the Go return pair plus the cache, the draws
made on the canvas, and the image work events. -/
structure RLOut where
  lo : LayerObjects
  err : Option String
  cache : Cache
  draws : List DrawOp
  evs : List Ev

/-- RenderLayer of the source (lines 189 to 290). Only the empty render
order or right-down is accepted; otherwise the zero LayerObjects and the
sentinel error return before any drawing. On success the accumulated
colmapX and colmapY become the XCollision and YCollision fields; on a tile
failure the partial layer objects return with the maps left nil. -/
def RenderLayer (osFS : String → Option Img) (eng : Engine) (m : Map)
    (c : Cache) (index : Nat) : RLOut :=
  let layer := m.Layers.getD index { Tiles := [], Visible := true, Opacity := 1 }
  if m.RenderOrder = "" ∨ m.RenderOrder = "right-down" then
    let st0 : RLState :=
      { lo := {}, colmapY := fun _ => [], colmapX := fun _ => [],
        cache := c, draws := [], evs := [] }
    let out := renderCells osFS eng m layer (List.range (m.Height * m.Width)) st0
    match out.2 with
    | some e => ⟨out.1.lo, some e, out.1.cache, out.1.draws, out.1.evs⟩
    | none =>
      ⟨{ out.1.lo with YCollision := out.1.colmapY, XCollision := out.1.colmapX },
       none, out.1.cache, out.1.draws, out.1.evs⟩
  else ⟨{}, some ErrUnsupportedRenderOrder, c, [], []⟩

/-- Per-key concatenation used by the collision map merge of
RenderVisibleLayers (source lines 310 to 315): Go ranges over the written
keys of the per-layer map and appends; per key this is list concatenation,
unwritten keys contribute the empty list. -/
def mergeCM (a b : CMap) : CMap := fun k => a k ++ b k

/-- The result of RenderVisibleLayers. -/
structure RVLOut where
  coll : LayerObjects
  err : Option String
  cache : Cache
  draws : List DrawOp
  evs : List Ev

/-- The layer loop of RenderVisibleLayers (source lines 300 to 316):
invisible layers are skipped; a failing layer aborts with the collisions
merged so far; a successful layer has its two maps merged by per-key
concatenation. -/
def rvlFold (osFS : String → Option Img) (eng : Engine) (m : Map) :
    List Nat → Cache → LayerObjects → List DrawOp → List Ev → RVLOut
  | [], c, coll, ds, evs => ⟨coll, none, c, ds, evs⟩
  | i :: rest, c, coll, ds, evs =>
    let layer := m.Layers.getD i { Tiles := [], Visible := true, Opacity := 1 }
    if layer.Visible then
      let out := RenderLayer osFS eng m c i
      match out.err with
      | some e => ⟨coll, some e, out.cache, ds ++ out.draws, evs ++ out.evs⟩
      | none =>
        rvlFold osFS eng m rest out.cache
          { coll with
            XCollision := mergeCM coll.XCollision out.lo.XCollision,
            YCollision := mergeCM coll.YCollision out.lo.YCollision }
          (ds ++ out.draws) (evs ++ out.evs)
    else rvlFold osFS eng m rest c coll ds evs

/-- RenderVisibleLayers of the source (lines 294 to 318): start from empty
collision maps and walk all layers in declaration order. -/
def RenderVisibleLayers (osFS : String → Option Img) (eng : Engine) (m : Map)
    (c : Cache) : RVLOut :=
  rvlFold osFS eng m (List.range m.Layers.length) c
    { Animation := [], TileObjects := [],
      XCollision := fun _ => [], YCollision := fun _ => [] } [] []

/-- The engine variants the renderer constructor can select; only the
orthogonal engine exists. -/
inductive EngineKind where
  | orthogonal
  deriving DecidableEq, Repr

/-- Modelled from the spec (4.2): GetFinalImageSize of the orthogonal
engine, grid width times tile width by grid height times tile height with
origin zero; the engine source is not under src/. -/
def OrthoFinalImageSize (m : Map) : GoRect :=
  ⟨⟨0, 0⟩, ⟨(m.Width * m.TileWidth : Nat), (m.Height * m.TileHeight : Nat)⟩⟩

/-- The renderer state NewRenderer builds: the map, the empty tile cache,
the selected engine, and the Result canvas, modelled as its bounds plus the
draw calls applied since allocation (a freshly allocated NRGBA canvas is
cleared, so a new canvas has no draws). -/
structure Renderer where
  m : Map
  tileCache : Cache
  engine : EngineKind
  resultBounds : GoRect
  resultDraws : List DrawOp

/-- NewRenderer of the source (lines 89 to 101): only the orthogonal
orientation is accepted; on success the engine is initialized and Clear
allocates the cleared canvas of the final image size. -/
def NewRenderer (m : Map) : Except String Renderer :=
  if m.Orientation = "orthogonal" then
    .ok { m := m, tileCache := fun _ => none, engine := .orthogonal,
          resultBounds := OrthoFinalImageSize m, resultDraws := [] }
  else .error ErrUnsupportedOrientation

/-! Concrete fixtures for the scenario claims and witnesses. -/

/-- A 16 by 16 tileset whose single tile is preloaded in the cache (no
filesystem access in the scenario). -/
def e2eTileset : Tileset :=
  { FirstGID := 1, TileWidth := 16, TileHeight := 16, Spacing := 0, Margin := 0,
    Columns := 1, TileCount := 1, Image := none, Tiles := [], BaseDir := "" }

/-- A layer tile with exactly one collision rectangle (4,4)-(8,8) in
tile-local space. -/
def e2eTile : LayerTile :=
  { Nil := false, ID := 0, Tileset := e2eTileset, HorizontalFlip := false,
    VerticalFlip := false, DiagonalFlip := false,
    Collision := [⟨⟨4, 4⟩, ⟨8, 8⟩⟩], Animation := [] }

/-- A one-by-one map holding the collision scenario tile. -/
def e2eMap : Map :=
  { Orientation := "orthogonal", RenderOrder := "", Width := 1, Height := 1,
    TileWidth := 16, TileHeight := 16,
    Layers := [{ Tiles := [e2eTile], Visible := true, Opacity := 1 }],
    LoaderFS := none, GidToTile := fun _ => none }

/-- Modelled from the spec (4.2): a concrete orthogonal placement engine for
a 16 by 16 grid; at grid cell (0,0) the placement Min is the canvas origin. -/
def e2eEngine : Engine :=
  { bounds := fun _ => ⟨⟨0, 0⟩, ⟨16, 16⟩⟩,
    truePos := fun _ x y =>
      ⟨⟨(16 * x : Nat), (16 * y : Nat)⟩,
       ⟨(16 * x + 16 : Nat), (16 * y + 16 : Nat)⟩⟩ }

/-- A cache holding the scenario tile image under its global id 1. -/
def e2eCache : Cache := fun k => if k = 1 then some (Img.src "tile.png") else none

/-- The rendered collision scenario. -/
def e2eOut : RLOut := RenderLayer (fun _ => none) e2eEngine e2eMap e2eCache 0

/-- A layer tile whose single collision rectangle (4,4)-(4,8) has zero
width (it encloses no area). -/
def c4Tile : LayerTile :=
  { Nil := false, ID := 0, Tileset := e2eTileset, HorizontalFlip := false,
    VerticalFlip := false, DiagonalFlip := false,
    Collision := [⟨⟨4, 4⟩, ⟨4, 8⟩⟩], Animation := [] }

/-- A one-by-one map holding the degenerate-rectangle tile. -/
def c4Map : Map :=
  { Orientation := "orthogonal", RenderOrder := "", Width := 1, Height := 1,
    TileWidth := 16, TileHeight := 16,
    Layers := [{ Tiles := [c4Tile], Visible := true, Opacity := 1 }],
    LoaderFS := none, GidToTile := fun _ => none }

/-- The rendered degenerate-rectangle scenario. -/
def c4Out : RLOut := RenderLayer (fun _ => none) e2eEngine c4Map e2eCache 0

/-- The slice rectangle as the spec words it: origin is (column times
tileWidth plus column times spacing plus margin, row times tileHeight plus
row times spacing plus margin) with column j mod columns and row j div
columns, and the extent is the origin plus (tileWidth, tileHeight). -/
def sliceRectSpec (tw th sp mg cols j : Nat) : GoRect :=
  ⟨⟨((j % cols) * tw + (j % cols) * sp + mg : Nat),
    ((j / cols) * th + (j / cols) * sp + mg : Nat)⟩,
   ⟨((j % cols) * tw + (j % cols) * sp + mg + tw : Nat),
    ((j / cols) * th + (j / cols) * sp + mg + th : Nat)⟩⟩

/-- A filesystem on which every path decodes to the symbolic image of that
path. -/
def okFS : String → Option Img := fun p => some (Img.src p)

/-- A tileset with per-tile source images and two tile definitions. -/
def c3Tileset : Tileset :=
  { FirstGID := 10, TileWidth := 16, TileHeight := 16, Spacing := 0, Margin := 0,
    Columns := 1, TileCount := 2, Image := none,
    Tiles := [{ ID := 0, TileType := "", ImageSource := "a.png" },
              { ID := 1, TileType := "", ImageSource := "b.png" }],
    BaseDir := "" }

/-- The layer tile referencing local id 0 of the per-tile tileset. -/
def c3Tile0 : LayerTile :=
  { Nil := false, ID := 0, Tileset := c3Tileset, HorizontalFlip := false,
    VerticalFlip := false, DiagonalFlip := false, Collision := [], Animation := [] }

/-- The layer tile referencing local id 1 of the per-tile tileset. -/
def c3Tile1 : LayerTile :=
  { Nil := false, ID := 1, Tileset := c3Tileset, HorizontalFlip := false,
    VerticalFlip := false, DiagonalFlip := false, Collision := [], Animation := [] }

/-- First resolution: local id 0 of the per-tile tileset on an empty cache. -/
def c3Out1 : GTOut := getTileImage okFS e2eMap (fun _ => none) c3Tile0

/-- Subsequent resolution of local id 1 of the same tileset, from the cache
the first resolution produced. -/
def c3Out2 : GTOut := getTileImage okFS e2eMap c3Out1.cache c3Tile1

/-- An atlas tileset with a single one-by-one tile. -/
def c6Tileset : Tileset :=
  { FirstGID := 1, TileWidth := 1, TileHeight := 1, Spacing := 0, Margin := 0,
    Columns := 1, TileCount := 1, Image := some ⟨"atlas.png", 1, 1⟩,
    Tiles := [], BaseDir := "" }

/-- A layer tile whose local id 5 lies outside the tile count of its atlas
tileset. -/
def c6Tile : LayerTile :=
  { Nil := false, ID := 5, Tileset := c6Tileset, HorizontalFlip := false,
    VerticalFlip := false, DiagonalFlip := false, Collision := [], Animation := [] }

/-- First resolution of the out-of-range atlas tile. -/
def c6Out1 : GTOut := getTileImage okFS e2eMap (fun _ => none) c6Tile

/-- Second resolution of the same global tile id, from the cache of the
first resolution. -/
def c6Out2 : GTOut := getTileImage okFS e2eMap c6Out1.cache c6Tile

/-- An atlas tileset with derived columns (four wide, two tiles of two by
two) for the in-range scenario. -/
def c6GoodTileset : Tileset :=
  { FirstGID := 1, TileWidth := 2, TileHeight := 2, Spacing := 0, Margin := 0,
    Columns := 0, TileCount := 0, Image := some ⟨"atlas.png", 4, 2⟩,
    Tiles := [], BaseDir := "" }

/-- A layer tile whose local id 1 is in range of its atlas tileset. -/
def c6GoodTile : LayerTile :=
  { Nil := false, ID := 1, Tileset := c6GoodTileset, HorizontalFlip := false,
    VerticalFlip := false, DiagonalFlip := false, Collision := [], Animation := [] }

/-- A per-tile tileset whose definition list has no entry with local id 0. -/
def c10Tileset : Tileset :=
  { FirstGID := 10, TileWidth := 16, TileHeight := 16, Spacing := 0, Margin := 0,
    Columns := 1, TileCount := 1, Image := none,
    Tiles := [{ ID := 3, TileType := "", ImageSource := "a.png" }],
    BaseDir := "" }

/-- A layer tile requesting the missing local id 0. -/
def c10Tile : LayerTile :=
  { Nil := false, ID := 0, Tileset := c10Tileset, HorizontalFlip := false,
    VerticalFlip := false, DiagonalFlip := false, Collision := [], Animation := [] }

/-- The declarative frame resolution of the spec (4.3 step 6): each
animation frame is resolved through the cache by its global id (the frame
tile id plus the tileset firstGID, as uint32); a failed lookup or a failed
image resolution skips that frame, keeping cache mutations, and a
successful one contributes its image in order. -/
inductive FramesResolve (osFS : String → Option Img) (m : Map) (fgid : Nat) :
    Cache → List AnimationFrame → List Img → Cache → Prop where
  | nil (c : Cache) : FramesResolve osFS m fgid c [] [] c
  | skipLookup {c cEnd : Cache} {rest : List AnimationFrame} {imgs : List Img}
      (f : AnimationFrame) :
      m.GidToTile ((f.TileID + fgid) % u32) = none →
      FramesResolve osFS m fgid c rest imgs cEnd →
      FramesResolve osFS m fgid c (f :: rest) imgs cEnd
  | skipResolve {c cEnd : Cache} {rest : List AnimationFrame} {imgs : List Img}
      (f : AnimationFrame) (lti : LayerTile) (e : String) :
      m.GidToTile ((f.TileID + fgid) % u32) = some lti →
      (getTileImage osFS m c lti).res = .error e →
      FramesResolve osFS m fgid ((getTileImage osFS m c lti).cache) rest imgs cEnd →
      FramesResolve osFS m fgid c (f :: rest) imgs cEnd
  | keep {c cEnd : Cache} {rest : List AnimationFrame} {imgs : List Img}
      (f : AnimationFrame) (lti : LayerTile) (animg : Img) :
      m.GidToTile ((f.TileID + fgid) % u32) = some lti →
      (getTileImage osFS m c lti).res = .ok animg →
      FramesResolve osFS m fgid ((getTileImage osFS m c lti).cache) rest imgs cEnd →
      FramesResolve osFS m fgid c (f :: rest) (animg :: imgs) cEnd

/-- A per-tile tileset whose definition 0 carries the type string used as
the animation classification label. -/
def c7Tileset : Tileset :=
  { FirstGID := 1, TileWidth := 16, TileHeight := 16, Spacing := 0, Margin := 0,
    Columns := 1, TileCount := 3, Image := none,
    Tiles := [{ ID := 0, TileType := "plane0", ImageSource := "p0.png" }],
    BaseDir := "" }

/-- An animated anchor tile: frame 0 is itself, frame 1 resolves, frame 2
has a dangling tile id. -/
def c7Anchor : LayerTile :=
  { Nil := false, ID := 0, Tileset := c7Tileset, HorizontalFlip := false,
    VerticalFlip := false, DiagonalFlip := false, Collision := [],
    Animation := [⟨0, 100⟩, ⟨1, 100⟩, ⟨7, 100⟩] }

/-- The layer tile frame 1 of the animation resolves to. -/
def c7FrameTile : LayerTile :=
  { Nil := false, ID := 1, Tileset := c7Tileset, HorizontalFlip := false,
    VerticalFlip := false, DiagonalFlip := false, Collision := [],
    Animation := [] }

/-- The animation scenario layer. -/
def c7Layer : Layer := { Tiles := [c7Anchor], Visible := true, Opacity := 1 }

/-- The animation scenario map: global id 2 resolves to the frame tile,
anything else fails the lookup. -/
def c7Map : Map :=
  { Orientation := "orthogonal", RenderOrder := "", Width := 1, Height := 1,
    TileWidth := 16, TileHeight := 16, Layers := [c7Layer], LoaderFS := none,
    GidToTile := fun g => if g = 2 then some c7FrameTile else none }

/-- A cache holding the anchor image at global id 1 and the frame image at
global id 2. -/
def c7Cache : Cache :=
  fun k => if k = 1 then some (Img.src "p0.png")
    else if k = 2 then some (Img.src "f1.png") else none

/-- The compositor state the animation scenario starts from. -/
def c7State : RLState :=
  { lo := {}, colmapY := fun _ => [], colmapX := fun _ => [],
    cache := c7Cache, draws := [], evs := [] }

/-- The collision scenario map with the unsupported render order left-up. -/
def c8Map : Map := { e2eMap with RenderOrder := "left-up" }

/-- The collision scenario map with the unsupported orientation isometric. -/
def c9BadMap : Map := { e2eMap with Orientation := "isometric" }

/-- Mutual consistency of the two collision maps: a pair is in one exactly
when its mirror is in the other. -/
def CMConsistent (mX mY : CMap) : Prop := ∀ a b : Int, b ∈ mX a ↔ a ∈ mY b

/-! Lemma layer: collision map consistency. -/

/-- An invariant is preserved by a fold when each step preserves it. -/
theorem foldl_preserve {α σ : Type _} (P : σ → Prop) (f : σ → α → σ)
    (h : ∀ s a, P s → P (f s a)) : ∀ (l : List α) (s : σ), P s → P (l.foldl f s)
  | [], _, hs => hs
  | a :: l, s, hs => foldl_preserve P f h l (f s a) (h s a hs)

/-- Membership in a collision map after one append. -/
theorem mem_cmAppend {mp : CMap} {k v a b : Int} :
    b ∈ cmAppend mp k v a ↔ b ∈ mp a ∨ (a = k ∧ b = v) := by
  unfold cmAppend
  by_cases h : a = k
  · subst h; simp
  · simp [h]

/-- The innermost collision step adds the same pair to both maps, so it
preserves consistency (first component colmapY, second colmapX). -/
theorem pairStep_consistent {mm : CMap × CMap} (h : CMConsistent mm.2 mm.1)
    (y x : Int) : CMConsistent (pairStep mm y x).2 (pairStep mm y x).1 := by
  intro a b
  unfold pairStep
  rw [mem_cmAppend, mem_cmAppend, h a b]
  tauto

/-- Expanding one collision rectangle preserves consistency. -/
theorem expandRect_consistent {pos col : GoRect} {mm : CMap × CMap}
    (h : CMConsistent mm.2 mm.1) :
    CMConsistent (expandRect pos col mm).2 (expandRect pos col mm).1 := by
  unfold expandRect
  exact foldl_preserve (fun s => CMConsistent s.2 s.1) _
    (fun s y hs => foldl_preserve (fun s2 => CMConsistent s2.2 s2.1) _
      (fun s2 x hs2 => pairStep_consistent hs2 y x) _ s hs) _ mm h

/-- Expanding all collision rectangles of a tile preserves consistency. -/
theorem expandCollisions_consistent {pos : GoRect} {cols : List GoRect}
    {mm : CMap × CMap} (h : CMConsistent mm.2 mm.1) :
    CMConsistent (expandCollisions pos cols mm).2 (expandCollisions pos cols mm).1 := by
  unfold expandCollisions
  refine foldl_preserve (fun s => CMConsistent s.2 s.1) _ ?_ _ mm h
  intro s col hs
  by_cases hc : col.Max.Y ≠ 0
  · simpa [hc] using expandRect_consistent hs
  · simpa [hc] using hs

/-- Processing one cell preserves consistency of the working maps. -/
theorem processCell_consistent {osFS : String → Option Img} {eng : Engine}
    {m : Map} {layer : Layer} {x y : Nat} {ltile : LayerTile} {st : RLState}
    (h : CMConsistent st.colmapX st.colmapY) :
    CMConsistent (processCell osFS eng m layer x y ltile st).1.colmapX
      (processCell osFS eng m layer x y ltile st).1.colmapY := by
  unfold processCell
  dsimp only
  split
  · exact h
  · split <;>
      exact @expandCollisions_consistent _ _ (st.colmapY, st.colmapX) h

/-- Processing one cell never touches the collision map fields stored in
the layer objects (they are only written at the end of RenderLayer). -/
theorem processCell_lo_maps {osFS : String → Option Img} {eng : Engine}
    {m : Map} {layer : Layer} {x y : Nat} {ltile : LayerTile} {st : RLState} :
    (processCell osFS eng m layer x y ltile st).1.lo.XCollision = st.lo.XCollision ∧
    (processCell osFS eng m layer x y ltile st).1.lo.YCollision = st.lo.YCollision := by
  unfold processCell
  dsimp only
  split
  · exact ⟨rfl, rfl⟩
  · split <;> exact ⟨rfl, rfl⟩

/-- The cell walk preserves consistency of the working maps. -/
theorem renderCells_consistent {osFS : String → Option Img} {eng : Engine}
    {m : Map} {layer : Layer} :
    ∀ (l : List Nat) (st : RLState), CMConsistent st.colmapX st.colmapY →
      CMConsistent (renderCells osFS eng m layer l st).1.colmapX
        (renderCells osFS eng m layer l st).1.colmapY := by
  intro l
  induction l with
  | nil => intro st h; exact h
  | cons i rest ih =>
    intro st h
    unfold renderCells
    dsimp only
    split
    · exact ih st h
    · split
      next st2 e heq =>
        have h2 := @processCell_consistent osFS eng m layer (i % m.Width)
          (i / m.Width) (layer.Tiles.getD i nilLayerTile) st h
        rw [heq] at h2
        exact h2
      next st2 heq =>
        have h2 := @processCell_consistent osFS eng m layer (i % m.Width)
          (i / m.Width) (layer.Tiles.getD i nilLayerTile) st h
        rw [heq] at h2
        exact ih st2 h2

/-- The cell walk leaves the map fields of the layer objects unchanged. -/
theorem renderCells_lo_maps {osFS : String → Option Img} {eng : Engine}
    {m : Map} {layer : Layer} :
    ∀ (l : List Nat) (st : RLState),
      (renderCells osFS eng m layer l st).1.lo.XCollision = st.lo.XCollision ∧
      (renderCells osFS eng m layer l st).1.lo.YCollision = st.lo.YCollision := by
  intro l
  induction l with
  | nil => intro st; exact ⟨rfl, rfl⟩
  | cons i rest ih =>
    intro st
    unfold renderCells
    dsimp only
    split
    · exact ih st
    · split
      next st2 e heq =>
        have h2 := @processCell_lo_maps osFS eng m layer (i % m.Width)
          (i / m.Width) (layer.Tiles.getD i nilLayerTile) st
        rw [heq] at h2
        exact h2
      next st2 heq =>
        have h2 := @processCell_lo_maps osFS eng m layer (i % m.Width)
          (i / m.Width) (layer.Tiles.getD i nilLayerTile) st
        rw [heq] at h2
        exact (h2.1 ▸ (h2.2 ▸ ih st2))

/-- The empty pair of maps is consistent. -/
theorem cmEmpty_consistent : CMConsistent (fun _ => []) (fun _ => []) := by
  intro a b; simp

/-- The maps returned by one RenderLayer call are mutually consistent, on
the success path, on a tile failure, and on an unsupported render order. -/
theorem RenderLayer_consistent (osFS : String → Option Img) (eng : Engine)
    (m : Map) (c : Cache) (index : Nat) :
    CMConsistent (RenderLayer osFS eng m c index).lo.XCollision
      (RenderLayer osFS eng m c index).lo.YCollision := by
  unfold RenderLayer
  dsimp only
  split
  · split
    next e heq =>
      have h2 := @renderCells_lo_maps osFS eng m
        (m.Layers.getD index { Tiles := [], Visible := true, Opacity := 1 })
        (List.range (m.Height * m.Width))
        { lo := {}, colmapY := fun _ => [], colmapX := fun _ => [],
          cache := c, draws := [], evs := [] }
      rw [h2.1, h2.2]
      exact cmEmpty_consistent
    next heq =>
      exact renderCells_consistent (List.range (m.Height * m.Width))
        { lo := {}, colmapY := fun _ => [], colmapX := fun _ => [],
          cache := c, draws := [], evs := [] } cmEmpty_consistent
  · exact cmEmpty_consistent

/-- Per-key merge of two consistent pairs of maps is consistent. -/
theorem mergeCM_consistent {aX aY bX bY : CMap} (hA : CMConsistent aX aY)
    (hB : CMConsistent bX bY) :
    CMConsistent (mergeCM aX bX) (mergeCM aY bY) := by
  intro a b
  simp only [mergeCM, List.mem_append, hA a b, hB a b]

/-- The layer loop of RenderVisibleLayers keeps the merged maps consistent. -/
theorem rvlFold_consistent {osFS : String → Option Img} {eng : Engine} {m : Map} :
    ∀ (l : List Nat) (c : Cache) (coll : LayerObjects) (ds : List DrawOp)
      (evs : List Ev), CMConsistent coll.XCollision coll.YCollision →
      CMConsistent (rvlFold osFS eng m l c coll ds evs).coll.XCollision
        (rvlFold osFS eng m l c coll ds evs).coll.YCollision := by
  intro l
  induction l with
  | nil => intro c coll ds evs h; exact h
  | cons i rest ih =>
    intro c coll ds evs h
    unfold rvlFold
    dsimp only
    split
    · split
      · exact h
      · exact ih _ _ _ _ (mergeCM_consistent h (RenderLayer_consistent osFS eng m c i))
    · exact ih _ _ _ _ h

/-! Lemma layer: closed form of one rectangle expansion. -/

/-- Membership in the integer points of a closed interval. -/
theorem mem_intRange {a b x : Int} : x ∈ intRange a b ↔ a ≤ x ∧ x ≤ b := by
  unfold intRange
  simp only [List.mem_map, List.mem_range]
  constructor
  · rintro ⟨j, hj, rfl⟩
    omega
  · intro hx
    exact ⟨(x - a).toNat, by omega, by omega⟩

/-- The integer points of an interval are distinct. -/
theorem intRange_nodup (a b : Int) : (intRange a b).Nodup := by
  unfold intRange
  have hinj : Function.Injective (fun j : Nat => a + (j : Int)) := by
    intro i j hij
    simp only at hij
    omega
  exact (List.nodup_range _).map hinj

/-- The inner x loop at a fixed y: colmapX gains y at every key of the x
list (once, when the keys are distinct). -/
theorem innerFoldX {y : Int} :
    ∀ (xs : List Int) (mm : CMap × CMap) (a : Int), xs.Nodup →
      ((xs.foldl (fun mm3 x => pairStep mm3 y x) mm).2) a
        = mm.2 a ++ (if a ∈ xs then [y] else []) := by
  intro xs
  induction xs with
  | nil => intro mm a _; simp
  | cons x xs ih =>
    intro mm a h
    rw [List.foldl_cons, ih _ a (List.nodup_cons.mp h).2]
    by_cases hax : a = x
    · subst hax
      have hnot : a ∉ xs := (List.nodup_cons.mp h).1
      simp [pairStep, cmAppend, hnot]
    · simp [pairStep, cmAppend, hax]

/-- The inner x loop at a fixed y: colmapY gains the whole x list at key y
and nothing elsewhere. -/
theorem innerFoldY {y : Int} :
    ∀ (xs : List Int) (mm : CMap × CMap) (b : Int),
      ((xs.foldl (fun mm3 x => pairStep mm3 y x) mm).1) b
        = if b = y then mm.1 b ++ xs else mm.1 b := by
  intro xs
  induction xs with
  | nil => intro mm b; by_cases hb : b = y <;> simp [hb]
  | cons x xs ih =>
    intro mm b
    rw [List.foldl_cons, ih]
    by_cases hb : b = y
    · subst hb
      simp [pairStep, cmAppend]
    · simp [pairStep, cmAppend, hb]

/-- The outer y loop: colmapX at key a gains the whole y list exactly when
a lies in the x interval. -/
theorem outerFoldX {pxmin pxmax : Int} :
    ∀ (ys : List Int) (mm : CMap × CMap) (a : Int),
      ((ys.foldl (fun mm2 y =>
          (intRange pxmin pxmax).foldl (fun mm3 x => pairStep mm3 y x) mm2) mm).2) a
        = mm.2 a ++ (if pxmin ≤ a ∧ a ≤ pxmax then ys else []) := by
  intro ys
  induction ys with
  | nil => intro mm a; simp
  | cons y ys ih =>
    intro mm a
    rw [List.foldl_cons, ih]
    rw [innerFoldX _ _ a (intRange_nodup pxmin pxmax)]
    by_cases hc : pxmin ≤ a ∧ a ≤ pxmax
    · simp [mem_intRange, hc]
    · simp [mem_intRange, hc]

/-- The outer y loop: colmapY at key b gains the whole x interval exactly
when b lies in the y list. -/
theorem outerFoldY {pxmin pxmax : Int} :
    ∀ (ys : List Int), ys.Nodup → ∀ (mm : CMap × CMap) (b : Int),
      ((ys.foldl (fun mm2 y =>
          (intRange pxmin pxmax).foldl (fun mm3 x => pairStep mm3 y x) mm2) mm).1) b
        = mm.1 b ++ (if b ∈ ys then intRange pxmin pxmax else []) := by
  intro ys
  induction ys with
  | nil => intro _ mm b; simp
  | cons y ys ih =>
    intro h mm b
    rw [List.foldl_cons, ih (List.nodup_cons.mp h).2]
    rw [innerFoldY]
    by_cases hb : b = y
    · subst hb
      have hnot : b ∉ ys := (List.nodup_cons.mp h).1
      simp [hnot]
    · simp [hb]

/-- Closed form of one rectangle expansion on colmapX: key a gains the full
translated y range exactly when a lies in the translated x range. -/
theorem expandRect_X (pos col : GoRect) (mm : CMap × CMap) (a : Int) :
    (expandRect pos col mm).2 a
      = mm.2 a ++ (if pos.Min.X + col.Min.X ≤ a ∧ a ≤ pos.Min.X + col.Max.X
          then intRange (pos.Min.Y + col.Min.Y) (pos.Min.Y + col.Max.Y) else []) := by
  unfold expandRect
  exact outerFoldX _ mm a

/-- Closed form of one rectangle expansion on colmapY. -/
theorem expandRect_Y (pos col : GoRect) (mm : CMap × CMap) (b : Int) :
    (expandRect pos col mm).1 b
      = mm.1 b ++ (if pos.Min.Y + col.Min.Y ≤ b ∧ b ≤ pos.Min.Y + col.Max.Y
          then intRange (pos.Min.X + col.Min.X) (pos.Min.X + col.Max.X) else []) := by
  unfold expandRect
  rw [outerFoldY _ (intRange_nodup _ _) mm b]
  by_cases hc : pos.Min.Y + col.Min.Y ≤ b ∧ b ≤ pos.Min.Y + col.Max.Y
  · simp [mem_intRange, hc]
  · simp [mem_intRange, hc]

/-- Unrolling the collision rectangle loop one step. -/
theorem expandCollisions_cons (pos : GoRect) (col : GoRect) (cols : List GoRect)
    (mm : CMap × CMap) :
    expandCollisions pos (col :: cols) mm
      = expandCollisions pos cols
          (if col.Max.Y ≠ 0 then expandRect pos col mm else mm) := by
  simp [expandCollisions]

/-- Collision expansion only appends: colmapX membership is preserved. -/
theorem expandCollisions_monoX {pos : GoRect} {cols : List GoRect}
    {mm : CMap × CMap} {a b : Int} (h : b ∈ mm.2 a) :
    b ∈ (expandCollisions pos cols mm).2 a := by
  unfold expandCollisions
  refine foldl_preserve (fun s => b ∈ s.2 a) _ ?_ _ mm h
  intro s col hs
  by_cases hc : col.Max.Y ≠ 0
  · have : b ∈ (expandRect pos col s).2 a := by
      rw [expandRect_X]
      exact List.mem_append_left _ hs
    simpa [hc] using this
  · simpa [hc] using hs

/-- Collision expansion only appends: colmapY membership is preserved. -/
theorem expandCollisions_monoY {pos : GoRect} {cols : List GoRect}
    {mm : CMap × CMap} {a b : Int} (h : a ∈ mm.1 b) :
    a ∈ (expandCollisions pos cols mm).1 b := by
  unfold expandCollisions
  refine foldl_preserve (fun s => a ∈ s.1 b) _ ?_ _ mm h
  intro s col hs
  by_cases hc : col.Max.Y ≠ 0
  · have : a ∈ (expandRect pos col s).1 b := by
      rw [expandRect_Y]
      exact List.mem_append_left _ hs
    simpa [hc] using this
  · simpa [hc] using hs

/-- Any point inside any translated rectangle that passes the filter lands
in both maps. -/
theorem expandCollisions_add {pos : GoRect} {a b : Int} :
    ∀ (cols : List GoRect) (mm : CMap × CMap) (col : GoRect), col ∈ cols →
      col.Max.Y ≠ 0 →
      pos.Min.X + col.Min.X ≤ a → a ≤ pos.Min.X + col.Max.X →
      pos.Min.Y + col.Min.Y ≤ b → b ≤ pos.Min.Y + col.Max.Y →
      b ∈ (expandCollisions pos cols mm).2 a ∧
        a ∈ (expandCollisions pos cols mm).1 b := by
  intro cols
  induction cols with
  | nil => intro mm col hmem; cases hmem
  | cons c rest ih =>
    intro mm col hmem hYne hx1 hx2 hy1 hy2
    rw [expandCollisions_cons]
    rcases List.mem_cons.mp hmem with hceq | hrest
    · subst hceq
      rw [if_pos hYne]
      constructor
      · refine expandCollisions_monoX ?_
        rw [expandRect_X]
        refine List.mem_append_right _ ?_
        rw [if_pos ⟨hx1, hx2⟩]
        exact mem_intRange.mpr ⟨hy1, hy2⟩
      · refine expandCollisions_monoY ?_
        rw [expandRect_Y]
        refine List.mem_append_right _ ?_
        rw [if_pos ⟨hy1, hy2⟩]
        exact mem_intRange.mpr ⟨hx1, hx2⟩
    · exact ih _ col hrest hYne hx1 hx2 hy1 hy2

/-- Claim C1: for every render, the two collision maps are mutually
consistent: a coordinate pair (x, y) added during collision expansion
appears in both maps, with y a member of XCollision x and x a member of
YCollision y, both for the per-layer maps returned by RenderLayer and for
the merged maps returned by RenderVisibleLayers. -/
theorem claim_C1 :
    (∀ (osFS : String → Option Img) (eng : Engine) (m : Map) (c : Cache)
      (index : Nat),
      CMConsistent (RenderLayer osFS eng m c index).lo.XCollision
        (RenderLayer osFS eng m c index).lo.YCollision) ∧
    (∀ (osFS : String → Option Img) (eng : Engine) (m : Map) (c : Cache),
      CMConsistent (RenderVisibleLayers osFS eng m c).coll.XCollision
        (RenderVisibleLayers osFS eng m c).coll.YCollision) := by
  constructor
  · exact RenderLayer_consistent
  · intro osFS eng m c
    exact rvlFold_consistent _ _ _ _ _ cmEmpty_consistent

/-- Claim C2: every collision rectangle of a rendered tile that passes the
filter is translated by the placement origin of the tile, and every integer
point (x, y) inside the translated rectangle, inclusive of both edges, has
y appended to XCollision at x and x appended to YCollision at y; in
particular the rectangle (4,4)-(8,8) on a tile placed at canvas origin
(0,0) yields XCollision keys 4..8, each list exactly the values 4..8, and
the symmetric YCollision structure. -/
theorem claim_C2 :
    (∀ (pos : GoRect) (cols : List GoRect) (mm : CMap × CMap) (col : GoRect)
        (a b : Int), col ∈ cols → col.Max.Y ≠ 0 →
        pos.Min.X + col.Min.X ≤ a → a ≤ pos.Min.X + col.Max.X →
        pos.Min.Y + col.Min.Y ≤ b → b ≤ pos.Min.Y + col.Max.Y →
        b ∈ (expandCollisions pos cols mm).2 a ∧
          a ∈ (expandCollisions pos cols mm).1 b) ∧
    e2eOut.err = none ∧
    (∀ a : Int, e2eOut.lo.XCollision a
        = if 4 ≤ a ∧ a ≤ 8 then [4, 5, 6, 7, 8] else []) ∧
    (∀ b : Int, e2eOut.lo.YCollision b
        = if 4 ≤ b ∧ b ≤ 8 then [4, 5, 6, 7, 8] else []) := by
  have hr : intRange 4 8 = [4, 5, 6, 7, 8] := by decide
  refine ⟨?_, rfl, ?_, ?_⟩
  · intro pos cols mm col a b h1 h2 h3 h4 h5 h6
    exact expandCollisions_add cols mm col h1 h2 h3 h4 h5 h6
  · intro a
    have hx : e2eOut.lo.XCollision a
        = (expandRect ⟨⟨0, 0⟩, ⟨16, 16⟩⟩ ⟨⟨4, 4⟩, ⟨8, 8⟩⟩
            (fun _ => [], fun _ => [])).2 a := rfl
    rw [hx, expandRect_X]
    norm_num [hr]
  · intro b
    have hy : e2eOut.lo.YCollision b
        = (expandRect ⟨⟨0, 0⟩, ⟨16, 16⟩⟩ ⟨⟨4, 4⟩, ⟨8, 8⟩⟩
            (fun _ => [], fun _ => [])).1 b := rfl
    rw [hy, expandRect_Y]
    norm_num [hr]

/-- Witness for claim C2 at concrete inputs: the point (6,5) of the
rectangle (4,4)-(8,8) lands in both maps, and key 4 of the scenario holds
exactly 4..8. -/
theorem claim_C2_witness :
    ((5 : Int) ∈ (expandCollisions ⟨⟨0, 0⟩, ⟨16, 16⟩⟩ [⟨⟨4, 4⟩, ⟨8, 8⟩⟩]
        (fun _ => [], fun _ => [])).2 6 ∧
      (6 : Int) ∈ (expandCollisions ⟨⟨0, 0⟩, ⟨16, 16⟩⟩ [⟨⟨4, 4⟩, ⟨8, 8⟩⟩]
        (fun _ => [], fun _ => [])).1 5) ∧
    e2eOut.lo.XCollision 4 = [4, 5, 6, 7, 8] := by
  constructor
  · exact claim_C2.1 ⟨⟨0, 0⟩, ⟨16, 16⟩⟩ [⟨⟨4, 4⟩, ⟨8, 8⟩⟩]
      (fun _ => [], fun _ => []) ⟨⟨4, 4⟩, ⟨8, 8⟩⟩ 6 5
      (by simp) (by decide) (by decide) (by decide) (by decide) (by decide)
  · have h := claim_C2.2.2.1 4
    simpa using h

/-- Counterexample to claim C4 as stated: the collision rectangle
(4,4)-(4,8) has zero width, hence is degenerate and encloses no area, yet
rendering the tile adds its boundary points to both collision maps. -/
theorem claim_C4_cex :
    c4Tile.Collision = [⟨⟨4, 4⟩, ⟨4, 8⟩⟩] ∧
    (⟨⟨4, 4⟩, ⟨4, 8⟩⟩ : GoRect).Min.X = (⟨⟨4, 4⟩, ⟨4, 8⟩⟩ : GoRect).Max.X ∧
    c4Out.err = none ∧
    c4Out.lo.XCollision 4 = [4, 5, 6, 7, 8] ∧
    c4Out.lo.YCollision 6 = [4] ∧
    c4Out.lo.XCollision 4 ≠ [] := by
  refine ⟨rfl, rfl, rfl, by decide, by decide, by decide⟩

/-- Claim C4 amended: collision expansion filters out exactly the
rectangles whose Max.Y is zero, which contribute nothing; every other
rectangle, including degenerate ones with zero width or zero height,
contributes every integer point of the translated rectangle (a boundary
segment when degenerate) to both maps. -/
theorem claim_C4 :
    ∀ (pos col : GoRect) (mm : CMap × CMap),
      (col.Max.Y = 0 → expandCollisions pos [col] mm = mm) ∧
      (col.Max.Y ≠ 0 →
        (∀ a : Int, (expandCollisions pos [col] mm).2 a
            = mm.2 a ++ (if pos.Min.X + col.Min.X ≤ a ∧ a ≤ pos.Min.X + col.Max.X
                then intRange (pos.Min.Y + col.Min.Y) (pos.Min.Y + col.Max.Y)
                else [])) ∧
        (∀ b : Int, (expandCollisions pos [col] mm).1 b
            = mm.1 b ++ (if pos.Min.Y + col.Min.Y ≤ b ∧ b ≤ pos.Min.Y + col.Max.Y
                then intRange (pos.Min.X + col.Min.X) (pos.Min.X + col.Max.X)
                else []))) := by
  intro pos col mm
  constructor
  · intro h
    simp [expandCollisions, h]
  · intro h
    have he : expandCollisions pos [col] mm = expandRect pos col mm := by
      simp [expandCollisions, h]
    rw [he]
    exact ⟨expandRect_X pos col mm, expandRect_Y pos col mm⟩

/-- Witness for claim C4 at concrete inputs: a rectangle with Max.Y zero
contributes nothing, and the zero-width rectangle (4,4)-(4,8) contributes
its boundary segment. -/
theorem claim_C4_witness :
    expandCollisions ⟨⟨0, 0⟩, ⟨16, 16⟩⟩ [⟨⟨3, 0⟩, ⟨5, 0⟩⟩]
        (fun _ => [], fun _ => []) = (fun _ => [], fun _ => []) ∧
    (expandCollisions ⟨⟨0, 0⟩, ⟨16, 16⟩⟩ [⟨⟨4, 4⟩, ⟨4, 8⟩⟩]
        (fun _ => [], fun _ => [])).2 4 = [4, 5, 6, 7, 8] := by
  constructor
  · exact (claim_C4 ⟨⟨0, 0⟩, ⟨16, 16⟩⟩ ⟨⟨3, 0⟩, ⟨5, 0⟩⟩ (fun _ => [], fun _ => [])).1 rfl
  · have h := ((claim_C4 ⟨⟨0, 0⟩, ⟨16, 16⟩⟩ ⟨⟨4, 4⟩, ⟨4, 8⟩⟩
      (fun _ => [], fun _ => [])).2 (by decide)).1 4
    have hr : intRange 4 8 = [4, 5, 6, 7, 8] := by decide
    simpa [hr] using h

/-! Lemma layer: the tile image cache. -/

/-- A cache hit returns the rotated cached image and performs no work. -/
theorem getTileImage_hit {osFS : String → Option Img} {m : Map} {c : Cache}
    {tile : LayerTile} {v : Img} (h : c (gidKey tile) = some v) :
    getTileImage osFS m c tile = ⟨.ok (rotTile tile v), c, []⟩ := by
  unfold getTileImage
  rw [h]

/-- The per-tile loop does nothing when no definition matches. -/
theorem perTileFold_noMatch {osFS : String → Option Img} {ts : Tileset}
    {tid key : Nat} :
    ∀ (tiles : List TilesetTile) (timg : Img) (c : Cache) (evs : List Ev),
      (∀ tt ∈ tiles, tt.ID ≠ tid) →
      perTileFold osFS ts tid key tiles timg c evs = (none, timg, c, evs) := by
  intro tiles
  induction tiles with
  | nil => intro timg c evs _; rfl
  | cons tt rest ih =>
    intro timg c evs h
    unfold perTileFold
    rw [if_neg (h tt (List.mem_cons_self tt rest))]
    exact ih timg c evs (fun u hu => h u (List.mem_cons_of_mem tt hu))

/-- The per-tile loop with exactly one matching definition: one decode, one
cache write at the requested key, the decoded image returned. -/
theorem perTileFold_single {osFS : String → Option Img} {ts : Tileset}
    {tid key : Nat} :
    ∀ (tiles : List TilesetTile) (timg : Img) (c : Cache) (evs : List Ev)
      (tt0 : TilesetTile) (dimg : Img),
      tiles.filter (fun tt => tt.ID == tid) = [tt0] →
      osFS (ts.GetFileFullPath tt0.ImageSource) = some dimg →
      perTileFold osFS ts tid key tiles timg c evs
        = (none, dimg, fun k => if k = key then some dimg else c k,
           evs ++ [Ev.decode (ts.GetFileFullPath tt0.ImageSource)]) := by
  intro tiles
  induction tiles with
  | nil => intro timg c evs tt0 dimg hf _; simp at hf
  | cons tt rest ih =>
    intro timg c evs tt0 dimg hf hfs
    by_cases htt : tt.ID = tid
    · have hfcons : (tt :: rest).filter (fun u => u.ID == tid)
          = tt :: rest.filter (fun u => u.ID == tid) := by
        simp [List.filter_cons, htt]
      rw [hfcons] at hf
      simp only [List.cons.injEq] at hf
      obtain ⟨rfl, hrest⟩ := hf
      unfold perTileFold
      rw [if_pos htt]
      simp only [hfs]
      have hnom : ∀ u ∈ rest, u.ID ≠ tid := by
        intro u hu
        have hfu := List.filter_eq_nil_iff.mp hrest u hu
        simpa using hfu
      rw [perTileFold_noMatch rest dimg _ _ hnom]
    · have hfcons : (tt :: rest).filter (fun u => u.ID == tid)
          = rest.filter (fun u => u.ID == tid) := by
        simp [List.filter_cons, htt]
      rw [hfcons] at hf
      unfold perTileFold
      rw [if_neg htt]
      exact ih timg c evs tt0 dimg hf hfs

/-- When the per-tile loop ends without an error, the requested key either
holds precisely the image the loop returns, or the loop touched nothing. -/
theorem perTileFold_ok {osFS : String → Option Img} {ts : Tileset}
    {tid key : Nat} :
    ∀ (tiles : List TilesetTile) (timg : Img) (c : Cache) (evs : List Ev)
      {timg2 : Img} {c2 : Cache} {evs2 : List Ev},
      perTileFold osFS ts tid key tiles timg c evs = (none, timg2, c2, evs2) →
      c2 key = some timg2 ∨ (c2 key = c key ∧ timg2 = timg) := by
  intro tiles
  induction tiles with
  | nil =>
    intro timg c evs timg2 c2 evs2 h
    simp only [perTileFold, Prod.mk.injEq] at h
    obtain ⟨-, h2, h3, -⟩ := h
    exact Or.inr ⟨by rw [← h3], h2.symm⟩
  | cons tt rest ih =>
    intro timg c evs timg2 c2 evs2 h
    unfold perTileFold at h
    by_cases htt : tt.ID = tid
    · rw [if_pos htt] at h
      cases hfs : osFS (ts.GetFileFullPath tt.ImageSource) with
      | none =>
        simp only [hfs, Prod.mk.injEq] at h
        exact absurd h.1 (by simp)
      | some dimg =>
        simp only [hfs] at h
        rcases ih _ _ _ h with hl | ⟨hkey, hti⟩
        · exact Or.inl hl
        · left
          rw [hkey, hti]
          simp
    · rw [if_neg htt] at h
      exact ih _ _ _ h

/-- One unrolling step of the atlas precache loop. -/
theorem atlasFold_succ (base : Img) (tw th sp mg cols fgid tid n : Nat)
    (c : Cache) :
    atlasFold base tw th sp mg cols fgid tid (n + 1) c
      = ((if tid = n
            then Img.crop base (sliceRectCode tw th sp mg cols n)
            else (atlasFold base tw th sp mg cols fgid tid n c).1),
         fun k => if k = fgid + n
            then some (Img.crop base (sliceRectCode tw th sp mg cols n))
            else (atlasFold base tw th sp mg cols fgid tid n c).2.1 k,
         (atlasFold base tw th sp mg cols fgid tid n c).2.2 ++ [Ev.cropEv]) := by
  unfold atlasFold
  rw [List.range_succ, List.foldl_append]
  rfl

/-- After the atlas loop, every index below the iteration count is cached
with its slice of the atlas. -/
theorem atlasFold_cache_lt (base : Img) (tw th sp mg cols fgid tid : Nat)
    (c : Cache) :
    ∀ (n j : Nat), j < n →
      (atlasFold base tw th sp mg cols fgid tid n c).2.1 (fgid + j)
        = some (Img.crop base (sliceRectCode tw th sp mg cols j))
  | 0, j, h => absurd h (Nat.not_lt_zero j)
  | n + 1, j, h => by
    rw [atlasFold_succ]
    dsimp only
    by_cases hj : j = n
    · subst hj
      rw [if_pos rfl]
    · have hne : fgid + j ≠ fgid + n := by omega
      rw [if_neg hne]
      exact atlasFold_cache_lt base tw th sp mg cols fgid tid c n j (by omega)

/-- The atlas loop writes only the keys of its index range. -/
theorem atlasFold_cache_other (base : Img) (tw th sp mg cols fgid tid : Nat)
    (c : Cache) :
    ∀ (n : Nat) (k : Nat), (∀ j, j < n → k ≠ fgid + j) →
      (atlasFold base tw th sp mg cols fgid tid n c).2.1 k = c k
  | 0, k, _ => rfl
  | n + 1, k, h => by
    rw [atlasFold_succ]
    dsimp only
    rw [if_neg (h n (Nat.lt_succ_self n))]
    exact atlasFold_cache_other base tw th sp mg cols fgid tid c n k
      (fun j hj => h j (Nat.lt_succ_of_lt hj))

/-- The atlas loop remembers the slice of the requested id when that id is
inside the range. -/
theorem atlasFold_timg_lt (base : Img) (tw th sp mg cols fgid tid : Nat)
    (c : Cache) :
    ∀ (n : Nat), tid < n →
      (atlasFold base tw th sp mg cols fgid tid n c).1
        = Img.crop base (sliceRectCode tw th sp mg cols tid)
  | 0, h => absurd h (Nat.not_lt_zero tid)
  | n + 1, h => by
    rw [atlasFold_succ]
    dsimp only
    by_cases htid : tid = n
    · subst htid
      rw [if_pos rfl]
    · rw [if_neg htid]
      exact atlasFold_timg_lt base tw th sp mg cols fgid tid c n (by omega)

/-- The requested image stays the Go nil image when the requested id lies
outside the range of the atlas loop. -/
theorem atlasFold_timg_ge (base : Img) (tw th sp mg cols fgid tid : Nat)
    (c : Cache) :
    ∀ (n : Nat), n ≤ tid →
      (atlasFold base tw th sp mg cols fgid tid n c).1 = Img.nilImg
  | 0, _ => rfl
  | n + 1, h => by
    rw [atlasFold_succ]
    dsimp only
    rw [if_neg (by omega)]
    exact atlasFold_timg_ge base tw th sp mg cols fgid tid c n (by omega)

/-- The slice rectangle the code computes equals the slice rectangle the
spec words describe. -/
theorem sliceRect_eq (tw th sp mg cols j : Nat) :
    sliceRectCode tw th sp mg cols j = sliceRectSpec tw th sp mg cols j := by
  unfold sliceRectCode sliceRectSpec
  simp only [GoRect.mk.injEq, GoPoint.mk.injEq]
  refine ⟨⟨?_, ?_⟩, ?_, ?_⟩ <;> (push_cast; ring)

/-- The atlas branch of getTileImage in one equation: on a cache miss with
an atlas tileset whose image decodes, the result is the atlas loop output
with the decode event in front. -/
theorem getTileImage_atlas {osFS : String → Option Img} {m : Map} {c : Cache}
    {tile : LayerTile} {ai : TsImage} {baseImg : Img}
    (hc : c (gidKey tile) = none) (hI : tile.Tileset.Image = some ai)
    (hfs : effFS osFS m (tile.Tileset.GetFileFullPath ai.Source) = some baseImg) :
    getTileImage osFS m c tile
      = ⟨.ok (rotTile tile (atlasFold baseImg tile.Tileset.TileWidth
            tile.Tileset.TileHeight tile.Tileset.Spacing tile.Tileset.Margin
            (atlasCols tile.Tileset ai) tile.Tileset.FirstGID tile.ID
            (atlasN tile.Tileset ai) c).1),
         (atlasFold baseImg tile.Tileset.TileWidth tile.Tileset.TileHeight
            tile.Tileset.Spacing tile.Tileset.Margin (atlasCols tile.Tileset ai)
            tile.Tileset.FirstGID tile.ID (atlasN tile.Tileset ai) c).2.1,
         Ev.decode (tile.Tileset.GetFileFullPath ai.Source) ::
           (atlasFold baseImg tile.Tileset.TileWidth tile.Tileset.TileHeight
             tile.Tileset.Spacing tile.Tileset.Margin (atlasCols tile.Tileset ai)
             tile.Tileset.FirstGID tile.ID (atlasN tile.Tileset ai) c).2.2⟩ := by
  unfold getTileImage
  simp only [hc, hI, hfs]

/-- Claim C10: when a tileset uses per-tile source images and its tile
definition list has no entry with the requested local id, getTileImage
returns no error and creates no cache entry: it applies the orientation
transform to the absent (Go nil) base image instead of reporting a
missing-tile failure. Stated on a cache miss, where the per-tile branch
runs. -/
theorem claim_C10 (osFS : String → Option Img) (m : Map) (c : Cache)
    (tile : LayerTile) (h1 : tile.Tileset.Image = none)
    (h2 : c (gidKey tile) = none)
    (h3 : ∀ tt ∈ tile.Tileset.Tiles, tt.ID ≠ tile.ID) :
    getTileImage osFS m c tile = ⟨.ok (rotTile tile Img.nilImg), c, []⟩ := by
  unfold getTileImage
  simp only [h2, h1]
  rw [perTileFold_noMatch _ _ _ _ h3]

/-- Witness for claim C10: the tileset with a single definition of id 3
resolves the missing id 0 to the rotated nil image without an error. -/
theorem claim_C10_witness :
    getTileImage okFS e2eMap (fun _ => none) c10Tile
      = ⟨.ok (rotTile c10Tile Img.nilImg), fun _ => none, []⟩ :=
  claim_C10 okFS e2eMap (fun _ => none) c10Tile rfl rfl (by decide)

/-- Counterexample to claim C3 as stated: resolving local id 0 of a
per-tile-image tileset with two definitions decodes and caches only that
tile; global id 11 (local id 1) is not cached, and the subsequent lookup of
local id 1 is not a cache hit: it performs its own decode. -/
theorem claim_C3_cex :
    c3Out1.res = .ok (rotTile c3Tile0 (Img.src "a.png")) ∧
    c3Out1.cache 10 = some (Img.src "a.png") ∧
    c3Out1.cache 11 = none ∧
    c3Out2.evs = [Ev.decode "b.png"] := by
  exact ⟨rfl, by decide, by decide, by decide⟩

/-- Claim C3 amended: on first reference, the per-tile branch decodes only
the image file of the definition entry matching the requested local id
(one decode when exactly one entry matches) and stores it under the
requested global id, leaving every other key untouched; a subsequent lookup
of the same id is a cache hit performing no work. Other tile ids of the
tileset are not precached and decode on their own first reference. -/
theorem claim_C3 (osFS : String → Option Img) (m : Map) (c : Cache)
    (tile : LayerTile) (tt0 : TilesetTile) (dimg : Img)
    (h1 : tile.Tileset.Image = none)
    (h2 : c (gidKey tile) = none)
    (h3 : tile.Tileset.Tiles.filter (fun tt => tt.ID == tile.ID) = [tt0])
    (h4 : osFS (tile.Tileset.GetFileFullPath tt0.ImageSource) = some dimg) :
    getTileImage osFS m c tile
      = ⟨.ok (rotTile tile dimg),
         fun k => if k = gidKey tile then some dimg else c k,
         [Ev.decode (tile.Tileset.GetFileFullPath tt0.ImageSource)]⟩ ∧
    getTileImage osFS m
        (fun k => if k = gidKey tile then some dimg else c k) tile
      = ⟨.ok (rotTile tile dimg),
         fun k => if k = gidKey tile then some dimg else c k, []⟩ := by
  constructor
  · unfold getTileImage
    simp only [h2, h1]
    rw [perTileFold_single _ _ _ _ _ _ h3 h4]
    rfl
  · exact getTileImage_hit (by simp)

/-- Witness for claim C3: local id 0 of the two-tile per-tile tileset is
decoded once, cached under global id 10, and the second resolution is a
pure cache hit. -/
theorem claim_C3_witness :
    (getTileImage okFS e2eMap (fun _ => none) c3Tile0
      = ⟨.ok (rotTile c3Tile0 (Img.src "a.png")),
         fun k => if k = gidKey c3Tile0 then some (Img.src "a.png") else none,
         [Ev.decode "a.png"]⟩) ∧
    (getTileImage okFS e2eMap
        (fun k => if k = gidKey c3Tile0 then some (Img.src "a.png") else none)
        c3Tile0
      = ⟨.ok (rotTile c3Tile0 (Img.src "a.png")),
         fun k => if k = gidKey c3Tile0 then some (Img.src "a.png") else none,
         []⟩) :=
  claim_C3 okFS e2eMap (fun _ => none) c3Tile0
    { ID := 0, TileType := "", ImageSource := "a.png" } (Img.src "a.png")
    rfl rfl (by decide) rfl

/-- Claim C5: on a cache miss of an atlas tileset, one pass caches all
derived tileCount slices, not just the requested tile; the column count is
derived as atlas width div (tileWidth + spacing) when zero, the tile count
as (atlas height div (tileHeight + spacing)) times columns when zero, and
the slice for index j sits at origin (column times tileWidth plus column
times spacing plus margin, row times tileHeight plus row times spacing plus
margin) with extent origin plus (tileWidth, tileHeight). -/
theorem claim_C5 (osFS : String → Option Img) (m : Map) (c : Cache)
    (tile : LayerTile) (ai : TsImage) (baseImg : Img) (colsD cntD : Nat)
    (h1 : tile.Tileset.Image = some ai)
    (h2 : c (gidKey tile) = none)
    (h3 : effFS osFS m (tile.Tileset.GetFileFullPath ai.Source) = some baseImg)
    (hcols : colsD = (if tile.Tileset.Columns = 0
        then ai.Width / (tile.Tileset.TileWidth + tile.Tileset.Spacing)
        else tile.Tileset.Columns))
    (hcnt : cntD = (if tile.Tileset.TileCount = 0
        then (ai.Height / (tile.Tileset.TileHeight + tile.Tileset.Spacing)) * colsD
        else tile.Tileset.TileCount))
    (hfit : tile.Tileset.FirstGID + cntD < u32) :
    ∀ j, j < cntD →
      (getTileImage osFS m c tile).cache (tile.Tileset.FirstGID + j)
        = some (Img.crop baseImg
            (sliceRectSpec tile.Tileset.TileWidth tile.Tileset.TileHeight
              tile.Tileset.Spacing tile.Tileset.Margin colsD j)) := by
  have hcols2 : atlasCols tile.Tileset ai = colsD := by
    rw [hcols]; rfl
  have hcnt2 : atlasCnt tile.Tileset ai = cntD := by
    rw [hcnt, ← hcols2]; rfl
  have hn : atlasN tile.Tileset ai = cntD := by
    unfold atlasN
    rw [hcnt2, Nat.mod_eq_of_lt (lt_of_le_of_lt (Nat.le_add_left _ _) hfit),
      Nat.mod_eq_of_lt hfit, Nat.add_sub_cancel_left]
  intro j hj
  rw [getTileImage_atlas h2 h1 h3]
  dsimp only
  rw [hcols2, hn, atlasFold_cache_lt _ _ _ _ _ _ _ _ _ cntD j hj, sliceRect_eq]

/-- Witness for claim C5: the four-wide atlas with derived columns two and
derived count two caches slice 1 at global id 2 with the spec rectangle. -/
theorem claim_C5_witness :
    (getTileImage okFS e2eMap (fun _ => none) c6GoodTile).cache 2
      = some (Img.crop (Img.src "atlas.png") (sliceRectSpec 2 2 0 0 2 1)) := by
  have h := claim_C5 okFS e2eMap (fun _ => none) c6GoodTile ⟨"atlas.png", 4, 2⟩
    (Img.src "atlas.png") 2 2 rfl rfl rfl (by decide) (by decide) (by decide)
    1 (by decide)
  exact h

/-- Counterexample to claim C6 as stated: local id 5 of a one-tile atlas
tileset is never cached, so resolving the same global tile id twice decodes
and crops the atlas twice; the second call is not a cache hit even though
both calls return the same image. -/
theorem claim_C6_cex :
    c6Out1.res = .ok (rotTile c6Tile Img.nilImg) ∧
    c6Out2.res = .ok (rotTile c6Tile Img.nilImg) ∧
    c6Out1.evs = [Ev.decode "atlas.png", Ev.cropEv] ∧
    c6Out2.evs = [Ev.decode "atlas.png", Ev.cropEv] ∧
    c6Out2.evs ≠ [] := by
  exact ⟨rfl, rfl, by decide, by decide, by decide⟩

/-- Claim C6 amended: whenever the first resolution succeeds and actually
stores the global id in the cache (true exactly when the id is covered by
its tileset), the second resolution of the same global id is a cache hit:
it returns the pixel-identical post-transform image, performs no decode and
no crop, and leaves every cache entry unchanged. -/
theorem claim_C6 (osFS : String → Option Img) (m : Map) (c : Cache)
    (tile : LayerTile) (img1 w : Img)
    (hfit : tile.Tileset.FirstGID + tile.ID < u32)
    (hok : (getTileImage osFS m c tile).res = .ok img1)
    (hcached : (getTileImage osFS m c tile).cache (gidKey tile) = some w) :
    getTileImage osFS m ((getTileImage osFS m c tile).cache) tile
      = ⟨.ok img1, (getTileImage osFS m c tile).cache, []⟩ := by
  have hgid : gidKey tile = tile.Tileset.FirstGID + tile.ID := by
    unfold gidKey
    exact Nat.mod_eq_of_lt hfit
  have himg : img1 = rotTile tile w := by
    cases hc : c (gidKey tile) with
    | some v =>
      rw [getTileImage_hit hc] at hok hcached
      have h1 : Except.ok (rotTile tile v) = Except.ok img1 := hok
      have h2 : some v = some w := by rw [← hc]; exact hcached
      rw [← Except.ok.inj h1, Option.some.inj h2]
    | none =>
      cases hI : tile.Tileset.Image with
      | none =>
        have hr : getTileImage osFS m c tile
            = (match perTileFold osFS tile.Tileset tile.ID (gidKey tile)
                  tile.Tileset.Tiles Img.nilImg c [] with
               | (some e, _, c2, evs2) => ⟨.error e, c2, evs2⟩
               | (none, timg, c2, evs2) => ⟨.ok (rotTile tile timg), c2, evs2⟩) := by
          unfold getTileImage
          simp only [hc, hI]
        rcases hp : perTileFold osFS tile.Tileset tile.ID (gidKey tile)
            tile.Tileset.Tiles Img.nilImg c [] with ⟨e?, timg2, c2, evs2⟩
        rw [hp] at hr
        cases e? with
        | some e =>
          rw [hr] at hok
          exact absurd hok (by simp)
        | none =>
          rw [hr] at hok hcached
          have h1 : Except.ok (rotTile tile timg2) = Except.ok img1 := hok
          rcases perTileFold_ok _ _ _ _ hp with hl | ⟨hkey, -⟩
          · have h2 : some timg2 = some w := by rw [← hl]; exact hcached
            rw [← Except.ok.inj h1, Option.some.inj h2]
          · have hc2 : c2 (gidKey tile) = some w := hcached
            rw [hkey, hc] at hc2
            exact absurd hc2 (by simp)
      | some ai =>
        cases hfs : effFS osFS m (tile.Tileset.GetFileFullPath ai.Source) with
        | none =>
          have hr : getTileImage osFS m c tile
              = ⟨.error (tile.Tileset.GetFileFullPath ai.Source), c, []⟩ := by
            unfold getTileImage
            simp only [hc, hI, hfs]
          rw [hr] at hok
          exact absurd hok (by simp)
        | some baseImg =>
          rw [getTileImage_atlas hc hI hfs] at hok hcached
          dsimp only at hok hcached
          rw [hgid] at hcached
          by_cases htid : tile.ID < atlasN tile.Tileset ai
          · rw [atlasFold_cache_lt _ _ _ _ _ _ _ _ _ _ _ htid] at hcached
            rw [atlasFold_timg_lt _ _ _ _ _ _ _ _ _ _ htid] at hok
            have h1 : Except.ok (rotTile tile (Img.crop baseImg
                (sliceRectCode tile.Tileset.TileWidth tile.Tileset.TileHeight
                  tile.Tileset.Spacing tile.Tileset.Margin
                  (atlasCols tile.Tileset ai) tile.ID)))
                = Except.ok img1 := hok
            rw [← Except.ok.inj h1, Option.some.inj hcached]
          · rw [atlasFold_cache_other _ _ _ _ _ _ _ _ _ _ _
                (fun j hj => by omega)] at hcached
            rw [hgid] at hc
            rw [hc] at hcached
            exact absurd hcached (by simp)
  rw [himg]
  exact getTileImage_hit hcached

/-- Witness for claim C6: the in-range atlas tile (local id 1 of the
four-wide atlas) is cached by the first resolution, and the second
resolution is a pure cache hit returning the identical image. -/
theorem claim_C6_witness :
    getTileImage okFS e2eMap
        ((getTileImage okFS e2eMap (fun _ => none) c6GoodTile).cache) c6GoodTile
      = ⟨.ok (rotTile c6GoodTile
            (Img.crop (Img.src "atlas.png") (sliceRectCode 2 2 0 0 2 1))),
         (getTileImage okFS e2eMap (fun _ => none) c6GoodTile).cache, []⟩ :=
  claim_C6 okFS e2eMap (fun _ => none) c6GoodTile
    (rotTile c6GoodTile (Img.crop (Img.src "atlas.png") (sliceRectCode 2 2 0 0 2 1)))
    (Img.crop (Img.src "atlas.png") (sliceRectCode 2 2 0 0 2 1))
    (by decide) rfl rfl

/-! Lemma layer: animation records, render order, construction. -/

/-- The TilePlane scan equals find-first-by-id, defaulting to the empty
string. -/
theorem findPlane_eq_find (tiles : List TilesetTile) (tid : Nat) :
    findPlane tiles tid
      = ((tiles.find? (fun tt => tt.ID == tid)).map TilesetTile.TileType).getD "" := by
  induction tiles with
  | nil => rfl
  | cons tt rest ih =>
    unfold findPlane
    by_cases htt : tt.ID = tid
    · rw [if_pos htt, List.find?_cons_of_pos _ (by simpa using htt)]
      rfl
    · rw [if_neg htt, List.find?_cons_of_neg _ (by simpa using htt), ih]

/-- The animation frame loop of the source satisfies the declarative
skip-on-failure resolution relation. -/
theorem resolveFrames_spec (osFS : String → Option Img) (m : Map) (fgid : Nat) :
    ∀ (l : List AnimationFrame) (c : Cache),
      FramesResolve osFS m fgid c l (resolveFrames osFS m fgid l c).1
        (resolveFrames osFS m fgid l c).2.1 := by
  intro l
  induction l with
  | nil => intro c; exact FramesResolve.nil c
  | cons f rest ih =>
    intro c
    unfold resolveFrames
    rcases hg : m.GidToTile ((f.TileID + fgid) % u32) with _ | lti
    · simp only [hg]
      exact FramesResolve.skipLookup f hg (ih c)
    · simp only [hg]
      rcases hres : (getTileImage osFS m c lti).res with e | animg
      · simp only [hres]
        exact FramesResolve.skipResolve f lti e hg hres (ih _)
      · simp only [hres]
        exact FramesResolve.keep f lti animg hg hres (ih _)

/-- Claim C7: a non-nil tile with a non-empty animation list whose own
image resolves produces no error from its cell, and appends exactly one
animation record: the first frame is the own resolved image of the tile, the
frames after it are the animation entries from index 1 onward resolved by
their global id (frame tile id plus the tileset firstGID) with failing
frames silently skipped, and the classification label is the type of the
first tileset tile definition whose id matches the anchor id. -/
theorem claim_C7 (osFS : String → Option Img) (eng : Engine) (m : Map)
    (layer : Layer) (x y : Nat) (ltile : LayerTile) (st : RLState) (img : Img)
    (hanim : 0 < ltile.Animation.length)
    (hok : (getTileImage osFS m st.cache ltile).res = .ok img) :
    (processCell osFS eng m layer x y ltile st).2 = none ∧
    ∃ (frames : List Img) (cEnd : Cache),
      (processCell osFS eng m layer x y ltile st).1.lo.Animation
        = st.lo.Animation ++
          [{ TileImages := img :: frames,
             TilePos := eng.truePos (eng.bounds img) x y,
             TilePlane := ((ltile.Tileset.Tiles.find?
                (fun tt => tt.ID == ltile.ID)).map TilesetTile.TileType).getD "",
             Duration := 0 }] ∧
      FramesResolve osFS m ltile.Tileset.FirstGID
        ((getTileImage osFS m st.cache ltile).cache)
        (ltile.Animation.drop 1) frames cEnd := by
  unfold processCell
  simp only [hok]
  rw [if_pos hanim]
  refine ⟨by trivial,
    (resolveFrames osFS m ltile.Tileset.FirstGID (ltile.Animation.drop 1)
      (getTileImage osFS m st.cache ltile).cache).1,
    (resolveFrames osFS m ltile.Tileset.FirstGID (ltile.Animation.drop 1)
      (getTileImage osFS m st.cache ltile).cache).2.1,
    ?_, resolveFrames_spec osFS m ltile.Tileset.FirstGID _ _⟩
  rw [← findPlane_eq_find]

/-- Witness for claim C7: the three-frame animated tile renders its cell
with no error, frame 1 resolving from the cache and the dangling frame 2
skipped. -/
theorem claim_C7_witness :
    (processCell okFS e2eEngine c7Map c7Layer 0 0 c7Anchor c7State).2 = none ∧
    ∃ (frames : List Img) (cEnd : Cache),
      (processCell okFS e2eEngine c7Map c7Layer 0 0 c7Anchor c7State).1.lo.Animation
        = c7State.lo.Animation ++
          [{ TileImages := rotTile c7Anchor (Img.src "p0.png") :: frames,
             TilePos := e2eEngine.truePos
               (e2eEngine.bounds (rotTile c7Anchor (Img.src "p0.png"))) 0 0,
             TilePlane := ((c7Anchor.Tileset.Tiles.find?
                (fun tt => tt.ID == c7Anchor.ID)).map TilesetTile.TileType).getD "",
             Duration := 0 }] ∧
      FramesResolve okFS c7Map c7Anchor.Tileset.FirstGID
        ((getTileImage okFS c7Map c7State.cache c7Anchor).cache)
        (c7Anchor.Animation.drop 1) frames cEnd :=
  claim_C7 okFS e2eEngine c7Map c7Layer 0 0 c7Anchor c7State
    (rotTile c7Anchor (Img.src "p0.png")) (by decide) rfl

/-- Claim C8: for a map whose render order is neither empty nor right-down,
RenderLayer fails immediately with ErrUnsupportedRenderOrder: no draw call
is made on the canvas, the cache is untouched, and the returned layer
objects hold no tile objects, no animation records, and no collision
entries. -/
theorem claim_C8 (osFS : String → Option Img) (eng : Engine) (m : Map)
    (c : Cache) (index : Nat)
    (h1 : m.RenderOrder ≠ "") (h2 : m.RenderOrder ≠ "right-down") :
    (RenderLayer osFS eng m c index).err = some ErrUnsupportedRenderOrder ∧
    (RenderLayer osFS eng m c index).lo.TileObjects = [] ∧
    (RenderLayer osFS eng m c index).lo.Animation = [] ∧
    (∀ a : Int, (RenderLayer osFS eng m c index).lo.XCollision a = []) ∧
    (∀ a : Int, (RenderLayer osFS eng m c index).lo.YCollision a = []) ∧
    (RenderLayer osFS eng m c index).draws = [] ∧
    (RenderLayer osFS eng m c index).cache = c := by
  have hr : RenderLayer osFS eng m c index
      = ⟨{}, some ErrUnsupportedRenderOrder, c, [], []⟩ := by
    unfold RenderLayer
    dsimp only
    rw [if_neg (fun h => h.elim (fun hh => h1 hh) (fun hh => h2 hh))]
  rw [hr]
  exact ⟨rfl, rfl, rfl, fun _ => rfl, fun _ => rfl, rfl, rfl⟩

/-- Witness for claim C8: rendering the left-up map returns the sentinel
error with an unmodified canvas and empty layer objects. -/
theorem claim_C8_witness :
    (RenderLayer okFS e2eEngine c8Map e2eCache 0).err
        = some ErrUnsupportedRenderOrder ∧
    (RenderLayer okFS e2eEngine c8Map e2eCache 0).draws = [] ∧
    (RenderLayer okFS e2eEngine c8Map e2eCache 0).lo.TileObjects = [] := by
  have h := claim_C8 okFS e2eEngine c8Map e2eCache 0 (by decide) (by decide)
  exact ⟨h.1, h.2.2.2.2.2.1, h.2.1⟩

/-- Claim C9: NewRenderer returns ErrUnsupportedOrientation and no renderer
for every map whose orientation is not orthogonal; for an orthogonal map it
succeeds with the orthogonal placement engine selected, an empty tile
cache, and a cleared canvas of the final image size. -/
theorem claim_C9 (m : Map) :
    (m.Orientation ≠ "orthogonal" →
      NewRenderer m = .error ErrUnsupportedOrientation) ∧
    (m.Orientation = "orthogonal" →
      NewRenderer m = .ok {
        m := m, tileCache := fun _ => none, engine := .orthogonal,
        resultBounds := OrthoFinalImageSize m, resultDraws := [] }) := by
  constructor
  · intro h
    unfold NewRenderer
    rw [if_neg h]
  · intro h
    unfold NewRenderer
    rw [if_pos h]

/-- Witness for claim C9: the isometric map is rejected, the orthogonal
scenario map constructs the renderer with the cleared canvas. -/
theorem claim_C9_witness :
    NewRenderer c9BadMap = .error ErrUnsupportedOrientation ∧
    NewRenderer e2eMap = .ok {
      m := e2eMap, tileCache := fun _ => none, engine := .orthogonal,
      resultBounds := OrthoFinalImageSize e2eMap, resultDraws := [] } :=
  ⟨(claim_C9 c9BadMap).1 (by decide), (claim_C9 e2eMap).2 rfl⟩

end TiledRender
